import Mathlib

/-!
Verification of the HTML translation core of `html-doc-translator`.

The embedding models, from the source:
- the parsed document tree that `BeautifulSoup(html, "html.parser")` hands to
  `translate_html` (`src/services/html_translator.py`): element nodes with a
  tag name, attributes and ordered children, plus the string-node kinds that
  `soup.find_all(string=True)` enumerates (plain text, `Comment`, `Doctype`);
- `SKIP_TAGS` and the eligibility filter of `_iter_nodes`;
- the batching loop, the `zip`-based in-place replacement and the error flow
  of `translate_html`;
- `DummyTranslationProvider.translate_batch` / `translate_batch_async`
  (`src/providers/dummy.py`);
- `OpenAITranslationProvider._translate_single_text` / `translate_batch_async`
  (`src/providers/openai.py`) with the network call abstracted as an oracle;
- the exception taxonomy of `src/services/exceptions.py` together with the
  Python-level errors (`ValueError` from `range`, FastAPI `HTTPException`)
  that the provider code actually raises.

BeautifulSoup itself is a third-party collaborator: parsing and serialization
are modelled from the spec's Document Tree contract (spec section 3: the tree
serializes back byte-for-byte except where text payloads were replaced), and
concrete claims about HTML strings are stated on the parse trees those strings
produce under `html.parser`.
-/

/-- A node of the parsed document tree.  `element` carries the tag name, the
attribute list and the ordered children; `text`, `comment` and `doctype` are
the `NavigableString` kinds relevant to `_iter_nodes` (plain text versus the
`Comment` / `Doctype` pseudo-nodes it filters out). -/
inductive Node where
  | element (tag : String) (attrs : List (String × String)) (children : List Node)
  | text (s : String)
  | comment (s : String)
  | doctype (s : String)

/-- The `SKIP_TAGS` set from `src/services/html_translator.py` lines 15-24. -/
def SKIP_TAGS : List String :=
  ["script", "style", "code", "pre", "noscript", "textarea", "svg", "template"]

/-- The characters Python's `str.strip()` removes (ASCII whitespace; the
Unicode space characters it also strips play no role in the claims). -/
def pyIsSpace (c : Char) : Bool :=
  c = ' ' || c = '\t' || c = '\n' || c = '\r' || c = '\x0b' || c = '\x0c'

/-- Models `not node.strip()`: the string is empty or all whitespace. -/
def pyStripEmpty (s : String) : Bool :=
  s.data.all pyIsSpace

/-- Python's `str.strip()`: drop leading and trailing whitespace. -/
def pyStrip (s : String) : String :=
  String.mk (((s.data.dropWhile pyIsSpace).reverse.dropWhile pyIsSpace).reverse)

/-- The eligibility test of `_iter_nodes` specialized to a plain text node:
the node is kept unless its stripped content is empty or its immediate
parent's tag is in `SKIP_TAGS` (lines 78-83; the `Comment`/`Doctype` test is
handled by the constructor match of the callers). -/
def eligibleText (parentTag : String) (s : String) : Bool :=
  !(pyStripEmpty s) && !(SKIP_TAGS.contains parentTag)

mutual
/-- Eligible text contents below one node, in document order; the string
contents of what `_iter_nodes` yields inside this subtree.  `parentTag` is the
tag name of the node's immediate parent (`node.parent.name`). -/
def collectNode (parentTag : String) : Node → List String
  | .text s => if eligibleText parentTag s then [s] else []
  | .comment _ => []
  | .doctype _ => []
  | .element tag _ cs => collectList tag cs

/-- Runs `collectNode` over a child list (children visited in stored order). -/
def collectList (parentTag : String) : List Node → List String
  | [] => []
  | c :: cs => collectNode parentTag c ++ collectList parentTag cs
end

/-- The contents of `list(_iter_nodes(soup))` for a document whose top-level
children are `soup`; top-level string nodes have `node.parent.name ==
"[document]"`, never a skip tag. -/
def docStrings (soup : List Node) : List String :=
  collectList "[document]" soup

/-- The kind of a string node as seen by `soup.find_all(string=True)`. -/
inductive SKind where
  | text
  | comment
  | doctype
deriving DecidableEq

/-- One string node as enumerated by `soup.find_all(string=True)`: its kind,
its character content, and the tag name of its immediate parent element. -/
structure SEntry where
  kind : SKind
  content : String
  parent : String
deriving DecidableEq

mutual
/-- Every string node below one node, in document order, with kind and
immediate parent tag: the full enumeration `soup.find_all(string=True)`
restricted to this subtree, before `_iter_nodes` filters it. -/
def allStringsNode (parentTag : String) : Node → List SEntry
  | .text s => [⟨.text, s, parentTag⟩]
  | .comment s => [⟨.comment, s, parentTag⟩]
  | .doctype s => [⟨.doctype, s, parentTag⟩]
  | .element tag _ cs => allStringsList tag cs

/-- Runs `allStringsNode` over a child list. -/
def allStringsList (parentTag : String) : List Node → List SEntry
  | [] => []
  | c :: cs => allStringsNode parentTag c ++ allStringsList parentTag cs
end

/-- All string nodes of the document, in document order. -/
def allStringsDoc (soup : List Node) : List SEntry :=
  allStringsList "[document]" soup

/-- The eligibility invariant as the spec states it: not a comment or doctype
pseudo-node, trimmed content non-empty, immediate parent's tag not in the
skip-set. -/
def eligibleSpec (e : SEntry) : Prop :=
  ¬(e.kind = SKind.comment ∨ e.kind = SKind.doctype) ∧
    ¬(pyStripEmpty e.content = true) ∧ e.parent ∉ SKIP_TAGS

instance (e : SEntry) : Decidable (eligibleSpec e) := by
  unfold eligibleSpec; infer_instance

mutual
/-- Serialization of one node back to HTML text, modelled from the spec:
`str(soup)` reproduces the markup byte-for-byte except for replaced text
payloads (spec section 3 Document Tree invariant; BeautifulSoup is the
third-party collaborator that implements it). -/
def serialize : Node → String
  | .text s => s
  | .comment s => "<!--" ++ s ++ "-->"
  | .doctype s => "<!DOCTYPE " ++ s ++ ">"
  | .element tag attrs cs =>
      "<" ++ tag ++ String.join (attrs.map (fun a => " " ++ a.1 ++ "=\x22" ++ a.2 ++ "\x22"))
        ++ ">" ++ serializeList cs ++ "</" ++ tag ++ ">"

/-- Runs `serialize` over a child list (concatenation in stored order). -/
def serializeList : List Node → String
  | [] => ""
  | c :: cs => serialize c ++ serializeList cs
end

/-- Models `str(soup)` for the whole document. -/
def serializeDoc (soup : List Node) : String :=
  serializeList soup

mutual
/-- In-place replacement pass: walks the subtree in document order and, at
each eligible text node, consumes the head of the replacement stream
(`some t` replaces the payload with `t` as `node.replace_with` does; `none`
leaves the node untouched, which is how a node skipped by `zip` truncation
behaves).  Returns the rewritten node and the unconsumed stream. -/
def applyRepl (parentTag : String) : Node → List (Option String) → Node × List (Option String)
  | .text s, repl =>
      if eligibleText parentTag s then
        match repl with
        | [] => (.text s, [])
        | none :: rest => (.text s, rest)
        | some t :: rest => (.text t, rest)
      else (.text s, repl)
  | .comment s, repl => (.comment s, repl)
  | .doctype s, repl => (.doctype s, repl)
  | .element tag attrs cs, repl =>
      let r := applyReplList tag cs repl
      (.element tag attrs r.1, r.2)

/-- Runs `applyRepl` over a child list, threading the replacement stream. -/
def applyReplList (parentTag : String) : List Node → List (Option String) → List Node × List (Option String)
  | [], repl => ([], repl)
  | c :: cs, repl =>
      let r := applyRepl parentTag c repl
      let r2 := applyReplList parentTag cs r.2
      (r.1 :: r2.1, r2.2)
end

/-- Replacement pass over the whole document. -/
def applyDocRepl (soup : List Node) (repl : List (Option String)) : List Node :=
  (applyReplList "[document]" soup repl).1

mutual
/-- Specification-side description of a full translation: every eligible text
node's content `s` becomes `f s`, everything else is untouched. -/
def mapEligible (f : String → String) (parentTag : String) : Node → Node
  | .text s => if eligibleText parentTag s then .text (f s) else .text s
  | .comment s => .comment s
  | .doctype s => .doctype s
  | .element tag attrs cs => .element tag attrs (mapEligibleList f tag cs)

/-- Runs `mapEligible` over a child list. -/
def mapEligibleList (f : String → String) (parentTag : String) : List Node → List Node
  | [] => []
  | c :: cs => mapEligible f parentTag c :: mapEligibleList f parentTag cs
end

mutual
/-- The markup skeleton of a node: every text payload blanked, tags,
attributes, nesting and node order kept. -/
def skeletonNode : Node → Node
  | .text _ => .text ""
  | .comment s => .comment s
  | .doctype s => .doctype s
  | .element tag attrs cs => .element tag attrs (skeletonList cs)

/-- Runs `skeletonNode` over a child list. -/
def skeletonList : List Node → List Node
  | [] => []
  | c :: cs => skeletonNode c :: skeletonList cs
end

/-- The error values the modelled code can raise: Python `ValueError` (from
`range(0, n, 0)`), FastAPI `HTTPException(status_code, detail)` (raised by
`src/providers/openai.py`), and the taxonomy of `src/services/exceptions.py`
relevant to the claims (`TranslationAPIError`, its specialization
`InsufficientQuotaError`). -/
inductive TlError where
  | valueError (msg : String)
  | httpException (status : Nat) (detail : String)
  | translationAPIError (providerName : String) (detail : String)
  | insufficientQuota (providerName : String) (detail : String)
deriving DecidableEq

/-- A translation provider: the `translate_batch`/`translate_batch_async`
capability, `(texts, target_lang, source_lang)` to either a result list or a
raised error. -/
abbrev Provider := List String → String → Option String → Except TlError (List String)

/-- The batch slices produced by `nodes[i:i+batch_size] for i in
range(0, len(nodes), batch_size)` for a positive step `b`: `range(0, n, b)`
has `(n + b - 1) / b` elements `0, b, 2b, ...`. -/
def pyChunksPos (b : Nat) (l : List α) : List (List α) :=
  (List.range ((l.length + b - 1) / b)).map (fun j => (l.drop (j * b)).take b)

/-- The same slicing for an arbitrary integer `batch_size`, with Python's
`range` semantics: step `0` raises `ValueError`, a negative step makes
`range(0, n, step)` empty (so no batches at all). -/
def pyRangeChunks (batch_size : Int) (l : List α) : Except TlError (List (List α)) :=
  if batch_size = 0 then Except.error (.valueError "range() arg 3 must not be zero")
  else if batch_size < 0 then Except.ok []
  else Except.ok (pyChunksPos batch_size.toNat l)

/-- The per-node effect of `for node, translation in zip(chunk, translations)`
(lines 132-134): the first `min(len(chunk), len(translations))` nodes of the
chunk get their translation, the rest of the chunk is left untouched. -/
def zipRepl (chunk ts : List String) : List (Option String) :=
  (ts.take chunk.length).map some ++ List.replicate (chunk.length - ts.length) none

/-- The batch loop of `translate_html` (lines 115-134): call the provider on
each chunk in order, abort on a raised error, and record the replacement
stream the `zip` loop applies.  (In the source the replacements of chunk `j`
are written into the tree before chunk `j+1`'s call; since an aborted call
returns no document, only the final tree is observable, and threading the
accumulated stream is the same function of the inputs.) -/
def runBatches (translator : Provider) (target_lang : String) (source_lang : Option String) :
    List (List String) → Except TlError (List (Option String))
  | [] => Except.ok []
  | c :: cs =>
      match translator c target_lang source_lang with
      | Except.error e => Except.error e
      | Except.ok ts =>
          match runBatches translator target_lang source_lang cs with
          | Except.error e => Except.error e
          | Except.ok rest => Except.ok (zipRepl c ts ++ rest)

/-- Models `translate_html` (`src/services/html_translator.py` lines 87-137) on the
already-parsed tree `soup` of the input string `html`: collect the eligible
nodes; if there are none return `html` itself; otherwise slice the node list
with `range`/`[i:i+batch_size]`, run the provider per slice, apply the
`zip`-based replacements and serialize the rewritten tree. -/
def translate_html (html : String) (soup : List Node) (translator : Provider)
    (target_lang : String) (source_lang : Option String) (batch_size : Int) :
    Except TlError String :=
  let nodes := docStrings soup
  if nodes = [] then Except.ok html
  else
    match pyRangeChunks batch_size nodes with
    | Except.error e => Except.error e
    | Except.ok chunks =>
        match runBatches translator target_lang source_lang chunks with
        | Except.error e => Except.error e
        | Except.ok repl => Except.ok (serializeDoc (applyDocRepl soup repl))

/-- The argument lists of the provider calls `translate_html` makes for a
document `soup` and a positive batch size `b`: the node strings of each chunk,
in chunk order (lines 115-130). -/
def node_batches (soup : List Node) (b : Nat) : List (List String) :=
  pyChunksPos b (docStrings soup)

/-- Models `DummyTranslationProvider.translate_batch` (`src/providers/dummy.py`
lines 26-34): prepends the configured `self.prefix` (`pref` here) to every
text, ignoring both language arguments. -/
def dummy_translate_batch (pref : String) (texts : List String)
    (target_lang : String) (source_lang : Option String) : List String :=
  texts.map (fun text => pref ++ text)

/-- Models `DummyTranslationProvider.translate_batch_async` (`src/providers/dummy.py`
lines 36-46): same computation as the synchronous variant. -/
def dummy_translate_batch_async (pref : String) (texts : List String)
    (target_lang : String) (source_lang : Option String) : List String :=
  texts.map (fun text => pref ++ text)

/-- The prompt `_translate_single_text` builds (`src/providers/openai.py`
line 27). -/
def buildPrompt (text : String) (target_lang : String) (source_lang : Option String) : String :=
  "Translate the following text from " ++ (source_lang.getD "autodetect") ++
    " to " ++ target_lang ++ ":\n\n" ++ text ++ "\n\nTranslated text:"

/-- Python `str(e)` for the modelled error values; for a FastAPI
`HTTPException` this is `f"{status_code}: {detail}"`. -/
def errStr : TlError → String
  | .valueError m => m
  | .httpException status detail => toString status ++ ": " ++ detail
  | .translationAPIError _ d => d
  | .insufficientQuota _ d => d

/-- Models `OpenAITranslationProvider._translate_single_text` (lines 25-44).  The
chat-completions network call is abstracted as `oracle` on the built prompt:
`Except.ok content` models a successful response (whose content is then
`.strip()`ed), `Except.error e` models any raised exception with `str(e) = e`
— including quota/rate-limit failures, whose exception text is all that
distinguishes them.  Every failure is re-raised as
`HTTPException(502, "OpenAI API error: " + str(e))`. -/
def translate_single_text (oracle : String → Except String String) (text : String)
    (target_lang : String) (source_lang : Option String) : Except TlError String :=
  match oracle (buildPrompt text target_lang source_lang) with
  | Except.ok content => Except.ok (pyStrip content)
  | Except.error e => Except.error (.httpException 502 ("OpenAI API error: " ++ e))

/-- The result-collection loop of `translate_batch_async` (lines 137-145):
walk the gathered per-item outcomes in input order; at the first captured
exception raise `HTTPException(502, "Error translating item: " + texts[i])`,
otherwise collect the successes. -/
def collectResults : List (String × Except TlError String) → Except TlError (List String)
  | [] => Except.ok []
  | (txt, Except.error _) :: _ =>
      Except.error (.httpException 502 ("Error translating item: " ++ txt))
  | (_, Except.ok r) :: rest =>
      match collectResults rest with
      | Except.error e => Except.error e
      | Except.ok rs => Except.ok (r :: rs)

/-- Models `OpenAITranslationProvider.translate_batch_async` (lines 129-150):
`asyncio.gather(..., return_exceptions=True)` yields the per-item outcomes in
input order; the loop raises on the first exception; the enclosing
`except Exception` then re-wraps that raise as
`HTTPException(502, "OpenAI batch API error: " + str(e))`. -/
def translate_batch_async (oracle : String → Except String String) (texts : List String)
    (target_lang : String) (source_lang : Option String) : Except TlError (List String) :=
  let gathered := texts.map
    (fun t => (t, translate_single_text oracle t target_lang source_lang))
  match collectResults gathered with
  | Except.ok results => Except.ok results
  | Except.error e =>
      Except.error (.httpException 502 ("OpenAI batch API error: " ++ errStr e))

/-- The identity-marking provider of the order-preservation property:
maps every input `x` to `"T(" + x + ")"` and never fails. -/
def tProvider : Provider :=
  fun texts _ _ => Except.ok (texts.map (fun x => "T(" ++ x ++ ")"))

/-- A provider mapping `Hello -> Bonjour`, `World -> Monde` (structure
preservation example). -/
def frProvider : Provider :=
  fun texts _ _ =>
    Except.ok (texts.map (fun s =>
      if s = "Hello" then "Bonjour" else if s = "World" then "Monde" else s))

/-- A contract-violating provider stub: always returns the single-element
list `["X"]`, one element shorter than a two-text batch. -/
def shortProvider : Provider :=
  fun _ _ _ => Except.ok ["X"]

/-- Parse tree of `"<p>A</p><p>B</p>"` under `html.parser`. -/
def soupAB : List Node :=
  [.element "p" [] [.text "A"], .element "p" [] [.text "B"]]

/-- Parse tree of `"<p>Hi</p>"` under `html.parser`. -/
def soupHi : List Node :=
  [.element "p" [] [.text "Hi"]]

/-- Parse tree of `"<pre><b>x</b></pre>"` under `html.parser`: the `b`
element is a real child element of `pre` (`pre` is an ordinary container, not
a raw-text element), so the text `"x"` has immediate parent `b`. -/
def soupPre : List Node :=
  [.element "pre" [] [.element "b" [] [.text "x"]]]

/-- Parse tree of `"<div><p>Hello</p><p>World</p></div>"`. -/
def soupHello : List Node :=
  [.element "div" [] [.element "p" [] [.text "Hello"], .element "p" [] [.text "World"]]]

/-- Parse tree of `"<script>var x = 1;</script>  "`: script content is raw
text whose immediate parent is `script`; the trailing text is whitespace. -/
def soupScript : List Node :=
  [.element "script" [] [.text "var x = 1;"], .text "  "]

/-- Oracle for the quota scenario: the chat call for `"Hello"`'s prompt fails
with a quota/rate-limit exception (its `str(e)` names `insufficient_quota`),
the call for `"World"`'s prompt succeeds. -/
def quotaOracle : String → Except String String :=
  fun p =>
    if p = buildPrompt "Hello" "fr" none then
      Except.error "Error code: 429 - insufficient_quota"
    else Except.ok "Monde"

/-- Effect of a full translation on one enumerated string node: an eligible
plain-text entry has its content mapped, every other entry is unchanged. -/
def entryMap (f : String → String) (e : SEntry) : SEntry :=
  match e.kind with
  | .text => if eligibleText e.parent e.content then ⟨.text, f e.content, e.parent⟩ else e
  | _ => e

mutual
/-- Running `applyRepl` with a replacement stream that has exactly `some (f s)` for
each eligible content `s` of the subtree replaces node for node and leaves
the rest of the stream. -/
theorem applyRepl_map (f : String → String) (parentTag : String) (n : Node)
    (rest : List (Option String)) :
    applyRepl parentTag n ((collectNode parentTag n).map (fun s => some (f s)) ++ rest) =
      (mapEligible f parentTag n, rest) := by
  cases n with
  | text s =>
      by_cases h : eligibleText parentTag s
      · simp [applyRepl, collectNode, mapEligible, h]
      · simp [applyRepl, collectNode, mapEligible, h]
  | comment s => simp [applyRepl, collectNode, mapEligible]
  | doctype s => simp [applyRepl, collectNode, mapEligible]
  | element tag attrs cs =>
      simp [applyRepl, collectNode, mapEligible, applyReplList_map f tag cs rest]

/-- The `applyRepl_map` property over a child list. -/
theorem applyReplList_map (f : String → String) (parentTag : String) (cs : List Node)
    (rest : List (Option String)) :
    applyReplList parentTag cs ((collectList parentTag cs).map (fun s => some (f s)) ++ rest) =
      (mapEligibleList f parentTag cs, rest) := by
  cases cs with
  | nil => simp [applyReplList, collectList, mapEligibleList]
  | cons c cs =>
      simp only [collectList, mapEligibleList, List.map_append, List.append_assoc,
        applyReplList]
      rw [applyRepl_map f parentTag c]
      rw [applyReplList_map f parentTag cs rest]
end

mutual
/-- An empty replacement stream leaves a node unchanged. -/
theorem applyRepl_nil (parentTag : String) (n : Node) :
    applyRepl parentTag n [] = (n, []) := by
  cases n with
  | text s =>
      by_cases h : eligibleText parentTag s
      · simp [applyRepl, h]
      · simp [applyRepl, h]
  | comment s => simp [applyRepl]
  | doctype s => simp [applyRepl]
  | element tag attrs cs => simp [applyRepl, applyReplList_nil tag cs]

/-- An empty replacement stream leaves a child list unchanged. -/
theorem applyReplList_nil (parentTag : String) (cs : List Node) :
    applyReplList parentTag cs [] = (cs, []) := by
  cases cs with
  | nil => simp [applyReplList]
  | cons c cs =>
      simp only [applyReplList]
      rw [applyRepl_nil parentTag c]
      simp only []
      rw [applyReplList_nil parentTag cs]
end

mutual
/-- A replacement pass never changes the markup skeleton of a node. -/
theorem skeleton_applyRepl (parentTag : String) (n : Node) (repl : List (Option String)) :
    skeletonNode (applyRepl parentTag n repl).1 = skeletonNode n := by
  cases n with
  | text s =>
      by_cases h : eligibleText parentTag s
      · cases repl with
        | nil => simp [applyRepl, h, skeletonNode]
        | cons o rest => cases o <;> simp [applyRepl, h, skeletonNode]
      · simp [applyRepl, h]
  | comment s => simp [applyRepl]
  | doctype s => simp [applyRepl]
  | element tag attrs cs =>
      simp [applyRepl, skeletonNode, skeletonList_applyRepl tag cs repl]

/-- A replacement pass never changes the markup skeleton of a child list. -/
theorem skeletonList_applyRepl (parentTag : String) (cs : List Node)
    (repl : List (Option String)) :
    skeletonList (applyReplList parentTag cs repl).1 = skeletonList cs := by
  cases cs with
  | nil => simp [applyReplList]
  | cons c cs =>
      simp only [applyReplList, skeletonList]
      rw [skeleton_applyRepl parentTag c repl, skeletonList_applyRepl parentTag cs]
end

mutual
/-- The eligible contents below a node are exactly the contents of the
enumerated string nodes that satisfy the spec's eligibility invariant. -/
theorem collectNode_filter (parentTag : String) (n : Node) :
    collectNode parentTag n =
      ((allStringsNode parentTag n).filter (fun e => decide (eligibleSpec e))).map
        SEntry.content := by
  cases n with
  | text s =>
      by_cases h : eligibleText parentTag s
      · have hs : eligibleSpec ⟨SKind.text, s, parentTag⟩ := by
          simp only [eligibleText, Bool.and_eq_true, Bool.not_eq_true'] at h
          refine ⟨by simp, by simp [h.1], ?_⟩
          simpa [List.contains, List.elem_eq_mem] using h.2
        simp [collectNode, allStringsNode, h, List.filter, hs]
      · have hs : ¬ eligibleSpec ⟨SKind.text, s, parentTag⟩ := by
          simp only [eligibleText, Bool.and_eq_true, Bool.not_eq_true'] at h
          intro hc
          rcases hc with ⟨-, h2, h3⟩
          rcases Bool.not_eq_true _ ▸ not_and_or.mp h with h4 | h4
          · exact h2 (by simpa using h4)
          · exact h3 (by simpa [List.contains, List.elem_eq_mem] using h4)
        simp [collectNode, allStringsNode, h, List.filter, hs]
  | comment s =>
      have hs : ¬ eligibleSpec ⟨SKind.comment, s, parentTag⟩ := by
        intro hc; exact hc.1 (Or.inl rfl)
      simp [collectNode, allStringsNode, List.filter, hs]
  | doctype s =>
      have hs : ¬ eligibleSpec ⟨SKind.doctype, s, parentTag⟩ := by
        intro hc; exact hc.1 (Or.inr rfl)
      simp [collectNode, allStringsNode, List.filter, hs]
  | element tag attrs cs =>
      simpa [collectNode, allStringsNode] using collectList_filter tag cs

/-- The `collectNode_filter` property over a child list. -/
theorem collectList_filter (parentTag : String) (cs : List Node) :
    collectList parentTag cs =
      ((allStringsList parentTag cs).filter (fun e => decide (eligibleSpec e))).map
        SEntry.content := by
  cases cs with
  | nil => simp [collectList, allStringsList]
  | cons c cs =>
      simp only [collectList, allStringsList, List.filter_append, List.map_append]
      rw [collectNode_filter parentTag c, collectList_filter parentTag cs]
end

mutual
/-- Translating a subtree maps each enumerated string node through
`entryMap`: eligible text entries get the translation, all other entries are
unchanged, and the enumeration order is preserved. -/
theorem allStrings_mapEligible (f : String → String) (parentTag : String) (n : Node) :
    allStringsNode parentTag (mapEligible f parentTag n) =
      (allStringsNode parentTag n).map (entryMap f) := by
  cases n with
  | text s =>
      by_cases h : eligibleText parentTag s
      · simp [mapEligible, allStringsNode, entryMap, h]
      · simp [mapEligible, allStringsNode, entryMap, h]
  | comment s => simp [mapEligible, allStringsNode, entryMap]
  | doctype s => simp [mapEligible, allStringsNode, entryMap]
  | element tag attrs cs =>
      simp [mapEligible, allStringsNode, allStringsList_mapEligible f tag cs]

/-- The `allStrings_mapEligible` property over a child list. -/
theorem allStringsList_mapEligible (f : String → String) (parentTag : String)
    (cs : List Node) :
    allStringsList parentTag (mapEligibleList f parentTag cs) =
      (allStringsList parentTag cs).map (entryMap f) := by
  cases cs with
  | nil => simp [mapEligibleList, allStringsList]
  | cons c cs =>
      simp only [mapEligibleList, allStringsList, List.map_append]
      rw [allStrings_mapEligible f parentTag c, allStringsList_mapEligible f parentTag cs]
end

/-- Joining the first `k` slices of width `b` gives the first `k * b`
elements. -/
theorem range_chunks_flatten (b : Nat) (k : Nat) (l : List α) :
    ((List.range k).map (fun j => (l.drop (j * b)).take b)).flatten = l.take (k * b) := by
  induction k generalizing l with
  | zero => simp
  | succ k ih =>
      rw [List.range_succ_eq_map]
      simp only [List.map_cons, List.map_map, List.flatten_cons, Nat.zero_mul,
        List.drop_zero]
      have hcomp :
          ((fun j => (l.drop (j * b)).take b) ∘ Nat.succ) =
            (fun j => ((l.drop b).drop (j * b)).take b) := by
        funext j
        simp only [Function.comp]
        rw [List.drop_drop]
        have : j * b + b = Nat.succ j * b := (Nat.succ_mul j b).symm
        rw [Nat.add_comm b (j * b), this]
      rw [hcomp, ih (l.drop b)]
      rw [Nat.succ_mul, Nat.add_comm (k * b) b, List.take_add]

/-- For a positive batch size the slices partition the list: no element
skipped, none duplicated, order preserved. -/
theorem pyChunksPos_flatten (b : Nat) (hb : 1 ≤ b) (l : List α) :
    (pyChunksPos b l).flatten = l := by
  unfold pyChunksPos
  rw [range_chunks_flatten]
  apply List.take_of_length_le
  have h1 := Nat.div_add_mod (l.length + b - 1) b
  have h2 : (l.length + b - 1) % b < b := Nat.mod_lt _ (by omega)
  have h3 : b * ((l.length + b - 1) / b) = ((l.length + b - 1) / b) * b :=
    Nat.mul_comm _ _
  omega

/-- The number of slices, written as the ceiling of `N / B`. -/
theorem pyChunksPos_length (b : Nat) (l : List α) :
    (pyChunksPos b l).length = l.length ⌈/⌉ b := by
  rw [Nat.ceilDiv_eq_add_pred_div]
  simp [pyChunksPos]

/-- Ceil division unfolded through quotient and remainder. -/
theorem ceil_div_eq (n b : Nat) (hb : 1 ≤ b) :
    (n + b - 1) / b = if n % b = 0 then n / b else n / b + 1 := by
  have hq := Nat.div_add_mod n b
  have hr : n % b < b := Nat.mod_lt _ (by omega)
  by_cases h : n % b = 0
  · have hn : n + b - 1 = (b - 1) + b * (n / b) := by omega
    rw [if_pos h, hn, Nat.add_mul_div_left _ _ (by omega : 0 < b),
      Nat.div_eq_of_lt (by omega : b - 1 < b), Nat.zero_add]
  · have hn : n + b - 1 = (n % b - 1) + b * (n / b + 1) := by
      have : b * (n / b + 1) = b * (n / b) + b := by ring
      omega
    rw [if_neg h, hn, Nat.add_mul_div_left _ _ (by omega : 0 < b),
      Nat.div_eq_of_lt (by omega : n % b - 1 < b), Nat.zero_add]

/-- Every slice except possibly the last has exactly `b` elements. -/
theorem pyChunksPos_length_of_not_last (b : Nat) (hb : 1 ≤ b) (l : List α) (i : Nat)
    (hi : i + 1 < (pyChunksPos b l).length) (c : List α)
    (hc : (pyChunksPos b l)[i]? = some c) : c.length = b := by
  have hlen : (pyChunksPos b l).length = (l.length + b - 1) / b := by
    simp [pyChunksPos]
  set count := (l.length + b - 1) / b with hcount
  have hic : i < count := by omega
  have hgot : (pyChunksPos b l)[i]? = some ((l.drop (i * b)).take b) := by
    unfold pyChunksPos
    rw [List.getElem?_map, List.getElem?_range (by omega : i < count)]
    rfl
  rw [hgot] at hc
  have hceq : c = (l.drop (i * b)).take b := (Option.some.inj hc).symm
  have hmul : count * b ≤ l.length + b - 1 := Nat.div_mul_le_self _ _
  have hsucc2 : i + 1 ≤ count - 1 := by omega
  have hle : (i + 1) * b ≤ (count - 1) * b := Nat.mul_le_mul_right b hsucc2
  have hsub : (count - 1) * b = count * b - b := by
    rw [Nat.sub_mul, Nat.one_mul]
  have hiN : (i + 1) * b ≤ l.length - 1 := by omega
  have hiN2 : i * b + b ≤ l.length := by
    have : (i + 1) * b = i * b + b := Nat.succ_mul i b
    omega
  rw [hceq, List.length_take, List.length_drop]
  omega

/-- The last slice has `N mod B` elements, or `B` when `B` divides `N`;
stated on `getLast?` so the no-slice case (`N = 0`) is the `none` case. -/
theorem pyChunksPos_getLast_length (b : Nat) (hb : 1 ≤ b) (l : List α) :
    ((pyChunksPos b l).getLast?).map List.length =
      (if l.length = 0 then none
       else some (if l.length % b = 0 then b else l.length % b)) := by
  have hlen : (pyChunksPos b l).length = (l.length + b - 1) / b := by
    simp [pyChunksPos]
  have hceil := ceil_div_eq l.length b hb
  have hq := Nat.div_add_mod l.length b
  have hr : l.length % b < b := Nat.mod_lt _ (by omega)
  by_cases hN : l.length = 0
  · have hc0 : (l.length + b - 1) / b = 0 := by
      rw [hN, Nat.zero_add]
      exact Nat.div_eq_of_lt (by omega)
    have hnil : pyChunksPos b l = [] := by
      unfold pyChunksPos
      rw [hc0]
      rfl
    rw [hnil, if_pos hN]
    rfl
  · have hcpos : 1 ≤ (l.length + b - 1) / b := by
      rw [hceil]
      by_cases h : l.length % b = 0
      · rw [if_pos h]
        by_contra hlt
        have hq0 : l.length / b = 0 := Nat.lt_one_iff.mp (Nat.lt_of_not_le hlt)
        rw [hq0] at hq
        omega
      · rw [if_neg h]
        exact Nat.succ_le_succ (Nat.zero_le _)
    have hlast : (pyChunksPos b l).getLast? =
        some ((l.drop (((l.length + b - 1) / b - 1) * b)).take b) := by
      unfold pyChunksPos
      rw [List.getLast?_eq_getElem?, List.length_map, List.length_range]
      rw [List.getElem?_map, List.getElem?_range (by omega)]
      rfl
    rw [hlast, if_neg hN, Option.map_some']
    congr 1
    rw [List.length_take, List.length_drop]
    by_cases h : l.length % b = 0
    · rw [if_pos h, hceil, if_pos h]
      have hqpos : 1 ≤ l.length / b := by
        by_contra hlt
        have hq0 : l.length / b = 0 := Nat.lt_one_iff.mp (Nat.lt_of_not_le hlt)
        rw [hq0] at hq
        omega
      have hx : (l.length / b - 1) * b = b * (l.length / b) - b := by
        rw [Nat.sub_mul, Nat.one_mul, Nat.mul_comm]
      have hY : b ≤ b * (l.length / b) := by
        calc b = b * 1 := (Nat.mul_one b).symm
        _ ≤ b * (l.length / b) := Nat.mul_le_mul_left b hqpos
      rw [hx]
      omega
    · rw [if_neg h, hceil, if_neg h]
      have hx : (l.length / b + 1 - 1) * b = b * (l.length / b) := by
        rw [Nat.add_sub_cancel, Nat.mul_comm]
      rw [hx]
      omega

/-- A provider that maps every text through `g` and never fails makes the
batch loop record exactly one `some (g s)` per node string, in order,
whatever the slicing was. -/
theorem runBatches_pure (g : String → String) (target_lang : String)
    (source_lang : Option String) (chunks : List (List String)) :
    runBatches (fun ts _ _ => Except.ok (ts.map g)) target_lang source_lang chunks =
      Except.ok (chunks.flatten.map (fun s => some (g s))) := by
  induction chunks with
  | nil => simp [runBatches]
  | cons c cs ih =>
      simp only [runBatches, ih, List.flatten_cons, List.map_append]
      congr 1
      unfold zipRepl
      rw [List.length_map, List.take_of_length_le (by simp), Nat.sub_self]
      simp [List.map_map]

/-- If every provider call succeeds, the batch loop succeeds. -/
theorem runBatches_ok (translator : Provider) (target_lang : String)
    (source_lang : Option String)
    (h : ∀ texts, ∃ out, translator texts target_lang source_lang = Except.ok out)
    (chunks : List (List String)) :
    ∃ r, runBatches translator target_lang source_lang chunks = Except.ok r := by
  induction chunks with
  | nil => exact ⟨[], rfl⟩
  | cons c cs ih =>
      rcases h c with ⟨out, hout⟩
      rcases ih with ⟨r, hr⟩
      refine ⟨zipRepl c out ++ r, ?_⟩
      simp [runBatches, hout, hr]

/-- Running `translate_html` with a total, length-preserving, `g`-mapping provider
and a positive batch size translates every eligible node through `g`,
independently of the batch size. -/
theorem translate_html_pure (html : String) (soup : List Node) (g : String → String)
    (target_lang : String) (source_lang : Option String) (B : Int) (hB : 1 ≤ B)
    (hne : docStrings soup ≠ []) :
    translate_html html soup (fun ts _ _ => Except.ok (ts.map g)) target_lang source_lang B =
      Except.ok (serializeDoc (mapEligibleList g "[document]" soup)) := by
  unfold translate_html
  simp only [if_neg hne]
  have hB0 : ¬ (B = 0) := by omega
  have hBneg : ¬ (B < 0) := by omega
  unfold pyRangeChunks
  simp only [if_neg hB0, if_neg hBneg]
  have hbnat : 1 ≤ B.toNat := by omega
  rw [runBatches_pure]
  rw [pyChunksPos_flatten B.toNat hbnat]
  have happ := applyReplList_map g "[document]" soup []
  rw [List.append_nil] at happ
  show Except.ok (serializeDoc (applyDocRepl soup
      ((docStrings soup).map (fun s => some (g s))))) = _
  unfold applyDocRepl docStrings
  rw [happ]

/-- Every slice except the last passes the `length == b` test; `dropLast`
form of `pyChunksPos_length_of_not_last`. -/
theorem pyChunksPos_dropLast_all (b : Nat) (hb : 1 ≤ b) (l : List α) :
    (pyChunksPos b l).dropLast.all (fun c => c.length == b) = true := by
  rw [List.all_eq_true]
  intro c hcmem
  rcases List.mem_iff_getElem.mp hcmem with ⟨i, hilt, hieq⟩
  have hlt2 : i < (pyChunksPos b l).length := by
    have := List.length_dropLast (pyChunksPos b l)
    omega
  have hi1 : i + 1 < (pyChunksPos b l).length := by
    have := List.length_dropLast (pyChunksPos b l)
    omega
  have hfull : (pyChunksPos b l)[i] = c := by
    rw [← List.getElem_dropLast (pyChunksPos b l) i hilt]
    exact hieq
  have hc2 : (pyChunksPos b l)[i]? = some c := by
    rw [List.getElem?_eq_getElem hlt2, hfull]
  have hlen := pyChunksPos_length_of_not_last b hb l i hi1 c hc2
  simp [hlen]

/-- C1: with the provider mapping every `x` to `"T(" + x + ")"` and any
batch size `1 ≤ B ≤ N` (`N` the eligible-node count), `translate_html`
returns the serialization of the tree in which each eligible text node's
content `s` has become `"T(" + s + ")"` — an expression independent of `B` —
and that tree's document-order string-node enumeration is the input's with
exactly the eligible text entries rewritten in place: the i-th eligible node
now carries `T(original_i)`, in original document order. -/
theorem C1_order_preservation (html target_lang : String) (source_lang : Option String)
    (soup : List Node) (B : Int) (hB : 1 ≤ B)
    (hBN : B ≤ ((docStrings soup).length : Int)) :
    translate_html html soup tProvider target_lang source_lang B =
      Except.ok (serializeDoc (mapEligibleList (fun x => "T(" ++ x ++ ")") "[document]" soup))
    ∧ allStringsDoc (mapEligibleList (fun x => "T(" ++ x ++ ")") "[document]" soup) =
      (allStringsDoc soup).map (entryMap (fun x => "T(" ++ x ++ ")")) := by
  constructor
  · have hne : docStrings soup ≠ [] := by
      intro h0
      rw [h0] at hBN
      simp at hBN
      omega
    exact translate_html_pure html soup (fun x => "T(" ++ x ++ ")")
      target_lang source_lang B hB hne
  · exact allStringsList_mapEligible (fun x => "T(" ++ x ++ ")") "[document]" soup

/-- C1 witness: the claim instantiated at the one-node document
`<p>Hi</p>` with batch size 1. -/
theorem C1_order_preservation_witness :
    ((1 : Int) ≤ 1 ∧ (1 : Int) ≤ ((docStrings soupHi).length : Int)) ∧
      (translate_html "<p>Hi</p>" soupHi tProvider "fr" none 1 =
        Except.ok (serializeDoc
          (mapEligibleList (fun x => "T(" ++ x ++ ")") "[document]" soupHi))
      ∧ allStringsDoc (mapEligibleList (fun x => "T(" ++ x ++ ")") "[document]" soupHi) =
        (allStringsDoc soupHi).map (entryMap (fun x => "T(" ++ x ++ ")"))) :=
  ⟨⟨by decide, by decide⟩,
    C1_order_preservation "<p>Hi</p>" "fr" none soupHi 1 (by decide) (by decide)⟩

/-- C2: for a positive batch size `B`, `translate_html`'s slicing step hands
the provider exactly `node_batches soup B` (last conjunct): their number is
`ceil(N / B)`, every call but possibly the last carries exactly `B` texts,
the last carries `N mod B` texts (or `B` when `B` divides `N`), and their
concatenation is exactly the eligible-node list in document order — every
text in exactly one call, calls in document order. -/
theorem C2_batch_partition (soup : List Node) (B : Nat) (hB : 1 ≤ B) :
    (node_batches soup B).length = (docStrings soup).length ⌈/⌉ B
    ∧ (node_batches soup B).dropLast.all (fun c => c.length == B) = true
    ∧ ((node_batches soup B).getLast?).map List.length =
        (if (docStrings soup).length = 0 then none
         else some (if (docStrings soup).length % B = 0 then B
                    else (docStrings soup).length % B))
    ∧ (node_batches soup B).flatten = docStrings soup
    ∧ pyRangeChunks (B : Int) (docStrings soup) = Except.ok (node_batches soup B) := by
  refine ⟨pyChunksPos_length B (docStrings soup),
    pyChunksPos_dropLast_all B hB (docStrings soup),
    pyChunksPos_getLast_length B hB (docStrings soup),
    pyChunksPos_flatten B hB (docStrings soup), ?_⟩
  unfold pyRangeChunks
  rw [if_neg (by omega : ¬ ((B : Int) = 0)), if_neg (by omega : ¬ ((B : Int) < 0))]
  unfold node_batches
  congr 1

/-- C2 witness: the claim instantiated at the two-node document
`<div><p>Hello</p><p>World</p></div>` with batch size 1. -/
theorem C2_batch_partition_witness :
    1 ≤ 1 ∧
      ((node_batches soupHello 1).length = (docStrings soupHello).length ⌈/⌉ 1
      ∧ (node_batches soupHello 1).dropLast.all (fun c => c.length == 1) = true
      ∧ ((node_batches soupHello 1).getLast?).map List.length =
          (if (docStrings soupHello).length = 0 then none
           else some (if (docStrings soupHello).length % 1 = 0 then 1
                      else (docStrings soupHello).length % 1))
      ∧ (node_batches soupHello 1).flatten = docStrings soupHello
      ∧ pyRangeChunks ((1 : Nat) : Int) (docStrings soupHello) =
          Except.ok (node_batches soupHello 1)) :=
  ⟨by decide, C2_batch_partition soupHello 1 (by decide)⟩

/-- C3: the node selector yields exactly the document-order string nodes that
are (a) plain text rather than comment/doctype pseudo-nodes, (b) non-blank
after stripping, and (c) whose immediate parent element's tag is not in the
skip-set; the list equality gives both directions of the iff and the
document-order property at once. -/
theorem C3_eligibility (soup : List Node) :
    docStrings soup =
      ((allStringsDoc soup).filter (fun e => decide (eligibleSpec e))).map
        SEntry.content :=
  collectList_filter "[document]" soup

/-- C4: when the eligible-node list is empty, `translate_html` returns the
original input string itself (byte-for-byte: no re-serialization) for every
provider, language pair and batch size — in particular the provider is never
consulted. -/
theorem C4_passthrough (html : String) (soup : List Node) (translator : Provider)
    (target_lang : String) (source_lang : Option String) (batch_size : Int)
    (h : docStrings soup = []) :
    translate_html html soup translator target_lang source_lang batch_size =
      Except.ok html := by
  simp [translate_html, h]

/-- C4 witness: a document holding only a script element and whitespace
text. -/
theorem C4_passthrough_witness :
    docStrings soupScript = [] ∧
      translate_html "<script>var x = 1;</script>  " soupScript tProvider "fr" none 100 =
        Except.ok "<script>var x = 1;</script>  " :=
  ⟨by decide,
    C4_passthrough "<script>var x = 1;</script>  " soupScript tProvider "fr" none 100
      (by decide)⟩

/-- C5 counterexample: on `<p>A</p><p>B</p>` (two eligible nodes, batch size
2) a provider returning the one-element list `["X"]` makes `translate_html`
return `ok` with a partially substituted document — first node replaced,
second left untranslated — instead of raising a `ProviderContractViolation`
(no such error, or any length check, exists in the code: `zip` silently
truncates). -/
theorem C5_counterexample :
    translate_html "<p>A</p><p>B</p>" soupAB shortProvider "fr" none 2 =
      Except.ok "<p>X</p><p>B</p>" := rfl

/-- C5 amended: a wrong-length provider result never aborts the translation:
whenever every provider call returns `ok` — of whatever length — and the
batch size is positive, `translate_html` returns `ok`; length mismatches are
silently zip-truncated (the counterexample exhibits the resulting partial
substitution). -/
theorem C5_amended_no_length_check (html : String) (soup : List Node)
    (translator : Provider) (target_lang : String) (source_lang : Option String)
    (B : Int) (hB : 1 ≤ B)
    (hok : ∀ texts, ∃ out, translator texts target_lang source_lang = Except.ok out) :
    ∃ res, translate_html html soup translator target_lang source_lang B =
      Except.ok res := by
  by_cases hne : docStrings soup = []
  · exact ⟨html, by simp [translate_html, hne]⟩
  · rcases runBatches_ok translator target_lang source_lang hok
      (pyChunksPos B.toNat (docStrings soup)) with ⟨r, hr⟩
    refine ⟨serializeDoc (applyDocRepl soup r), ?_⟩
    simp only [translate_html, pyRangeChunks, if_neg hne,
      if_neg (by omega : ¬ (B = 0)), if_neg (by omega : ¬ (B < 0)), hr]

/-- C5 amended witness: the short provider on the two-node document with
batch size 2. -/
theorem C5_amended_witness :
    ((1 : Int) ≤ 2) ∧
      ∃ res, translate_html "<p>A</p><p>B</p>" soupAB shortProvider "fr" none 2 =
        Except.ok res :=
  ⟨by decide,
    C5_amended_no_length_check "<p>A</p><p>B</p>" soupAB shortProvider "fr" none 2
      (by decide) (fun texts => ⟨["X"], rfl⟩)⟩

/-- C6 counterexample: `batch_size = -1` on `<p>Hi</p>` (one eligible node,
with a provider that would rewrite it to `T(Hi)`): `translate_html` neither
clamps the value (the text comes back untranslated) nor raises any error — it
silently produces zero batches and returns the re-serialized document. -/
theorem C6_counterexample :
    translate_html "<p>Hi</p>" soupHi tProvider "fr" none (-1) =
      Except.ok "<p>Hi</p>" := rfl

/-- C6 amended: on a document with at least one eligible node,
`batch_size = 0` raises Python's `ValueError` from `range` (no
`ConfigurationError` exists in the code and nothing clamps), and any negative
`batch_size` silently yields zero batches: the provider is never called and
the document is returned re-serialized with no node translated.  Neither case
loops forever. -/
theorem C6_amended_zero_negative (html : String) (soup : List Node)
    (translator : Provider) (target_lang : String) (source_lang : Option String)
    (hne : docStrings soup ≠ []) :
    translate_html html soup translator target_lang source_lang 0 =
      Except.error (TlError.valueError "range() arg 3 must not be zero")
    ∧ ∀ b : Int, b < 0 →
        translate_html html soup translator target_lang source_lang b =
          Except.ok (serializeDoc soup) := by
  constructor
  · simp [translate_html, hne, pyRangeChunks]
  · intro b hb
    simp only [translate_html, pyRangeChunks, if_neg hne,
      if_neg (by omega : ¬ (b = 0)), if_pos hb]
    show Except.ok (serializeDoc (applyDocRepl soup [])) = _
    unfold applyDocRepl
    rw [applyReplList_nil]

/-- C6 amended witness: instantiated at `<p>Hi</p>` with the marking
provider. -/
theorem C6_amended_witness :
    (docStrings soupHi ≠ []) ∧
      (translate_html "<p>Hi</p>" soupHi tProvider "fr" none 0 =
        Except.error (TlError.valueError "range() arg 3 must not be zero")
      ∧ ∀ b : Int, b < 0 →
          translate_html "<p>Hi</p>" soupHi tProvider "fr" none b =
            Except.ok (serializeDoc soupHi)) :=
  ⟨by decide, C6_amended_zero_negative "<p>Hi</p>" soupHi tProvider "fr" none (by decide)⟩

/-- C7 counterexample: in `<pre><b>x</b></pre>` the text `"x"` lies inside
the skip-set element `pre` but its immediate parent is the nested `b`
element; it is selected, appears in the produced batch, is passed to the
provider and comes back translated. -/
theorem C7_counterexample :
    docStrings soupPre = ["x"]
    ∧ node_batches soupPre 100 = [["x"]]
    ∧ translate_html "<pre><b>x</b></pre>" soupPre tProvider "fr" none 100 =
      Except.ok "<pre><b>T(x)</b></pre>" :=
  ⟨by decide, by decide, rfl⟩

/-- C7 amended: the guarantee the code gives is about the immediate parent
only: the concatenation of all produced batches is exactly the eligible list
(whose entries all have their immediate parent outside the skip-set); text
whose immediate parent element is in the skip-set never reaches a batch,
while text nested under a non-skip element inside a skip-set element does. -/
theorem C7_amended_immediate_parent (soup : List Node) (B : Nat) (hB : 1 ≤ B) :
    (node_batches soup B).flatten =
      ((allStringsDoc soup).filter (fun e => decide (eligibleSpec e))).map
        SEntry.content
    ∧ ((allStringsDoc soup).filter (fun e => decide (eligibleSpec e))).all
        (fun e => !(SKIP_TAGS.contains e.parent)) = true := by
  constructor
  · rw [node_batches, pyChunksPos_flatten B hB]
    exact collectList_filter "[document]" soup
  · rw [List.all_eq_true]
    intro e he
    have hdec := (List.mem_filter.mp he).2
    have hspec : eligibleSpec e := of_decide_eq_true hdec
    have hnot := hspec.2.2
    simp [List.contains, List.elem_eq_mem, hnot]

/-- C7 amended witness: instantiated at the `<pre><b>x</b></pre>` tree with
batch size 1. -/
theorem C7_amended_witness :
    1 ≤ 1 ∧
      ((node_batches soupPre 1).flatten =
        ((allStringsDoc soupPre).filter (fun e => decide (eligibleSpec e))).map
          SEntry.content
      ∧ ((allStringsDoc soupPre).filter (fun e => decide (eligibleSpec e))).all
          (fun e => !(SKIP_TAGS.contains e.parent)) = true) :=
  ⟨by decide, C7_amended_immediate_parent soupPre 1 (by decide)⟩

/-- C8: on `<div><p>Hello</p><p>World</p></div>` with the
`Hello -> Bonjour`, `World -> Monde` provider the output is exactly
`<div><p>Bonjour</p><p>Monde</p></div>`; and in general the replacement pass
— the only tree mutation `translate_html` performs — never changes the markup
skeleton: tag names, attributes, nesting, and the number and order of nodes
are invariant, only text payloads change. -/
theorem C8_structure_preservation :
    translate_html "<div><p>Hello</p><p>World</p></div>" soupHello frProvider "fr" none 100 =
      Except.ok "<div><p>Bonjour</p><p>Monde</p></div>"
    ∧ ∀ (parentTag : String) (cs : List Node) (repl : List (Option String)),
        skeletonList (applyReplList parentTag cs repl).1 = skeletonList cs :=
  ⟨rfl, fun parentTag cs repl => skeletonList_applyRepl parentTag cs repl⟩

/-- C9: evaluation at the failing input.  With the chat call for `"Hello"`
failing on a quota/rate-limit error while `"World"` succeeds,
`translate_batch_async` raises the generic wrapped
`HTTPException(502, "OpenAI batch API error: ...")` — never the distinct
`InsufficientQuotaError` of `src/services/exceptions.py`, which no provider
code path constructs — and the successful `"World"` translation is discarded
(the same oracle on `["World"]` alone returns `ok ["Monde"]`, so no mixed
partial list is ever returned). -/
theorem C9_quota_error_is_generic :
    translate_batch_async quotaOracle ["Hello", "World"] "fr" none =
      Except.error (TlError.httpException 502
        "OpenAI batch API error: 502: Error translating item: Hello")
    ∧ (∀ pn d, translate_batch_async quotaOracle ["Hello", "World"] "fr" none ≠
        Except.error (TlError.insufficientQuota pn d))
    ∧ translate_batch_async quotaOracle ["World"] "fr" none = Except.ok ["Monde"] := by
  have h1 : translate_batch_async quotaOracle ["Hello", "World"] "fr" none =
      Except.error (TlError.httpException 502
        "OpenAI batch API error: 502: Error translating item: Hello") := rfl
  refine ⟨h1, ?_, rfl⟩
  intro pn d h
  rw [h1] at h
  exact TlError.noConfusion (Except.error.inj h)

/-- C10: the dummy provider's synchronous and asynchronous batch methods
compute the same function for every input list and any combination of
language arguments: each returns the input list with the configured marker
(`self.prefix`, `pref` here) prepended to every element, hence a list of the
input's length with element `i` equal to `pref ++ texts[i]`. -/
theorem C10_dummy_sync_async_agree (pref : String) (texts : List String)
    (tl1 tl2 : String) (sl1 sl2 : Option String) :
    dummy_translate_batch pref texts tl1 sl1 =
      dummy_translate_batch_async pref texts tl2 sl2
    ∧ dummy_translate_batch pref texts tl1 sl1 = texts.map (fun t => pref ++ t)
    ∧ (dummy_translate_batch pref texts tl1 sl1).length = texts.length := by
  refine ⟨rfl, rfl, ?_⟩
  simp [dummy_translate_batch]
